import Mathlib

/-!
Shallow embedding of `addon/components/mobile-menu.js` from ember-mobile-menu.

Numbers are modelled as rationals (`ℚ`).  External collaborators are
parameters of the configuration: `getWindowWidth()` becomes
`Config.windowWidth`, the FastBoot check becomes `Config.isFastBoot`.
`normalizeCoordinates` (from ember-mobile-core) is an external coordinate
normalizer; per the component contract the handlers receive already
normalized samples, i.e. we model the `embed = false` path where `_e = e`.

The ember-concurrency `restartable` task semantics are modelled as a
single-slot live instance per task: performing the task replaces the slot
(cancelling the previous instance, whose completion callback then never
fires), progress steps write `position` through the captured projection,
and completion fires the `onOpen` / `onClose` callback (counted).
-/

namespace MobileMenu

/-- The `type` argument: `'left'` or `'right'`. -/
inductive MenuType where
  | left : MenuType
  | right : MenuType
deriving DecidableEq, Repr

/-- Per-instance configuration together with the environment values the
component reads (`getWindowWidth()`, the FastBoot service). -/
structure Config where
  type : MenuType
  width : ℚ
  maxWidth : ℚ
  triggerVelocity : ℚ
  isFastBoot : Bool
  windowWidth : ℚ
deriving DecidableEq, Repr

/-- Computed property `isLeft`: `type === 'left'`. -/
def isLeft (cfg : Config) : Bool :=
  match cfg.type with
  | .left => true
  | .right => false

/-- Mutable component state touched by the gesture handlers. -/
structure MenuState where
  isDragging : Bool
  position : ℚ
  dxCorrection : ℚ
deriving DecidableEq, Repr

/-- One normalized drag sample: `current.distanceX`, `current.velocityX`,
`current.x`. -/
structure Sample where
  distanceX : ℚ
  velocityX : ℚ
  x : ℚ
deriving DecidableEq, Repr

/-- Computed property `_width`:
`isFastBoot ? maxWidth : Math.min(width / 100 * getWindowWidth(), maxWidth)`. -/
def _width (cfg : Config) : ℚ :=
  if cfg.isFastBoot then cfg.maxWidth
  else min (cfg.width / 100 * cfg.windowWidth) cfg.maxWidth

/-- Computed property `isOpen`: `!isDragging && position === _width`. -/
def isOpen (cfg : Config) (s : MenuState) : Bool :=
  !s.isDragging && decide (s.position = _width cfg)

/-- Computed property `relativePosition`: `Math.abs(position) / _width`. -/
def relativePosition (cfg : Config) (s : MenuState) : ℚ :=
  |s.position| / _width cfg

/-- The directionalized displacement: `isLeft ? distanceX : -distanceX`. -/
def dirDx (cfg : Config) (e : Sample) : ℚ :=
  if isLeft cfg then e.distanceX else -e.distanceX

/-- The directionalized velocity: `isLeft ? velocityX : -velocityX`. -/
def dirVx (cfg : Config) (e : Sample) : ℚ :=
  if isLeft cfg then e.velocityX else -e.velocityX

/-- The pointer coordinate measured from the anchored edge:
`isLeft ? x : windowWidth - x` (from `didPan`). -/
def cxOf (cfg : Config) (e : Sample) : ℚ :=
  if isLeft cfg then e.x else cfg.windowWidth - e.x

/-- Which animation task a gesture-end handler performs. -/
inductive MenuAction where
  | openMenu : MenuAction
  | closeMenu : MenuAction
deriving DecidableEq, Repr

/-- Handler `panOpen(e)`: sets `isDragging = true`, then writes
`position = Math.min(Math.max(dx, 0), width)`. -/
def panOpen (cfg : Config) (s : MenuState) (e : Sample) : MenuState :=
  let dx := dirDx cfg e
  let width := _width cfg
  let targetPosition := min (max dx 0) width
  { s with isDragging := true, position := targetPosition }

/-- Handler `panOpenEnd(e)`: sets `isDragging = false` and performs the `open` task
when `vx > triggerVelocity || dx > width / 2`, else the `close` task. -/
def panOpenEnd (cfg : Config) (s : MenuState) (e : Sample) :
    MenuState × MenuAction :=
  let dx := dirDx cfg e
  let vx := dirVx cfg e
  let width := _width cfg
  ({ s with isDragging := false },
   if vx > cfg.triggerVelocity ∨ dx > width / 2 then MenuAction.openMenu
   else MenuAction.closeMenu)

/-- Handler `didPan(e)`: detects drag-begin (`isOpen && !isDragging && cx < width`,
capturing `dxCorrection = dx`), then while dragging and `cx < width` writes
`position = width + clamp(dx - dxCorrection, -width, 0)`. -/
def didPan (cfg : Config) (s : MenuState) (e : Sample) : MenuState :=
  let dx := dirDx cfg e
  let cx := cxOf cfg e
  let width := _width cfg
  let s1 :=
    if isOpen cfg s = true ∧ s.isDragging = false ∧ cx < width then
      { s with isDragging := true, dxCorrection := dx }
    else s
  if s1.isDragging then
    let t0 := dx - s1.dxCorrection
    if cx < width then
      let t := if t0 > 0 then (0 : ℚ)
               else if t0 < -1 * width then -1 * width
               else t0
      { s1 with position := width + t }
    else s1
  else s1

/-- Handler `didPanEnd(e)`: only acts when `isDragging`; then sets
`isDragging = false`, performs `close` when
`vx < -1 * triggerVelocity || -1 * dx > width / 2` else `open`, and resets
`dxCorrection = 0`. -/
def didPanEnd (cfg : Config) (s : MenuState) (e : Sample) :
    MenuState × Option MenuAction :=
  if s.isDragging then
    let dx := dirDx cfg e
    let vx := dirVx cfg e
    let width := _width cfg
    ({ s with isDragging := false, dxCorrection := 0 },
     some (if vx < -1 * cfg.triggerVelocity ∨ -1 * dx > width / 2 then
             MenuAction.closeMenu
           else MenuAction.openMenu))
  else (s, none)

/-- The decision `didPanEnd` makes when a drag was in progress, as a
function of the sample alone: it reads the raw directionalized `distanceX`
and `velocityX`, never `dxCorrection`. -/
def didPanEndDecision (cfg : Config) (e : Sample) : MenuAction :=
  if dirVx cfg e < -1 * cfg.triggerVelocity ∨
     -1 * dirDx cfg e > _width cfg / 2 then MenuAction.closeMenu
  else MenuAction.openMenu

/-- Modelled from the spec: the decision that the corrected displacement
`dx - dxCorrection` (the quantity that determined the final dragged
position in `didPan`) would select under the same rule, for comparison
with `didPanEndDecision`, which reads the raw `dx`. -/
def correctedDecision (cfg : Config) (corr : ℚ) (e : Sample) : MenuAction :=
  if dirVx cfg e < -1 * cfg.triggerVelocity ∨
     -1 * (dirDx cfg e - corr) > _width cfg / 2 then MenuAction.closeMenu
  else MenuAction.openMenu

/-- One position-writing gesture callback: a sample delivered on the
open channel (`panOpen`) or on the reposition channel (`didPan`). -/
inductive DragEvent where
  | openDrag : Sample → DragEvent
  | reposition : Sample → DragEvent
deriving DecidableEq, Repr

/-- Dispatch one drag sample to the handler of its channel. -/
def dragStep (cfg : Config) (s : MenuState) : DragEvent → MenuState
  | .openDrag e => panOpen cfg s e
  | .reposition e => didPan cfg s e

/-- Run a whole sequence of drag samples through the gesture handlers. -/
def dragRun (cfg : Config) (s : MenuState) (l : List DragEvent) : MenuState :=
  l.foldl (dragStep cfg) s

/-- Positions reachable from the initial `position = 0` through the
gesture handlers and through the progress writes of the `open` and
`close` animations (the `Tween` driver produces progress fractions
`p ∈ [0, 1]`; the `open` tween writes `startPos + diff * p` with
`diff = _width - startPos`, the `close` tween writes
`startPos * (1 - p)`, each from a previously reached start position). -/
inductive ReachablePos (cfg : Config) : ℚ → Prop where
  | init : ReachablePos cfg 0
  | openDragStep (s : MenuState) (e : Sample) :
      ReachablePos cfg s.position →
      ReachablePos cfg (panOpen cfg s e).position
  | repositionStep (s : MenuState) (e : Sample) :
      ReachablePos cfg s.position →
      ReachablePos cfg (didPan cfg s e).position
  | openAnimStep (startPos p : ℚ) :
      ReachablePos cfg startPos → 0 ≤ p → p ≤ 1 →
      ReachablePos cfg (startPos + (_width cfg - startPos) * p)
  | closeAnimStep (startPos p : ℚ) :
      ReachablePos cfg startPos → 0 ≤ p → p ≤ 1 →
      ReachablePos cfg (startPos * (1 - p))

/-- Component state together with the two ember-concurrency `restartable`
tasks.  A live `open` instance is the pair `(startPos, diff)` it captured
when performed (source lines 175-176); a live `close` instance is its
captured `startPos` (line 187).  `onOpenCount` / `onCloseCount` count the
completion-callback invocations `onOpen(this)` / `onClose()`. -/
structure TaskState where
  menu : MenuState
  openInst : Option (ℚ × ℚ)
  closeInst : Option ℚ
  onOpenCount : ℕ
  onCloseCount : ℕ
deriving DecidableEq, Repr

/-- Performing the restartable `open` task (`this.get('open').perform()`):
the previous `open` instance, if any, is cancelled and replaced (its
completion callback never fires); the new instance captures
`startPos = position` and `diff = _width - startPos`.  Nothing else is
touched: in particular neither `isDragging` nor the `close` task. -/
def performOpenTask (cfg : Config) (s : TaskState) : TaskState :=
  { s with openInst := some (s.menu.position, _width cfg - s.menu.position) }

/-- Performing the restartable `close` task: replaces any previous `close`
instance, capturing `startPos = position`; touches nothing else. -/
def performCloseTask (s : TaskState) : TaskState :=
  { s with closeInst := some s.menu.position }

/-- One progress write of the live `open` tween:
`position = startPos + diff * progress`. -/
def openProgress (s : TaskState) (p : ℚ) : TaskState :=
  match s.openInst with
  | some (startPos, diff) =>
      { s with menu := { s.menu with position := startPos + diff * p } }
  | none => s

/-- Completion of the live `open` tween: the final progress write at
`p = 1`, then the `onOpen(this)` callback fires. -/
def openComplete (s : TaskState) : TaskState :=
  match s.openInst with
  | some (startPos, diff) =>
      { s with menu := { s.menu with position := startPos + diff * 1 },
               openInst := none,
               onOpenCount := s.onOpenCount + 1 }
  | none => s

/-- One progress write of the live `close` tween:
`position = startPos * (1 - progress)`. -/
def closeProgress (s : TaskState) (p : ℚ) : TaskState :=
  match s.closeInst with
  | some startPos =>
      { s with menu := { s.menu with position := startPos * (1 - p) } }
  | none => s

/-- Completion of the live `close` tween: the final progress write at
`p = 1`, then the `onClose()` callback fires. -/
def closeComplete (s : TaskState) : TaskState :=
  match s.closeInst with
  | some startPos =>
      { s with menu := { s.menu with position := startPos * (1 - 1) },
               closeInst := none,
               onCloseCount := s.onCloseCount + 1 }
  | none => s

/-- The `actions.open()` entry point: it only performs the `open` task. -/
def actionOpen (cfg : Config) (s : TaskState) : TaskState :=
  performOpenTask cfg s

/-- The `actions.close()` entry point: it only performs the `close` task. -/
def actionClose (s : TaskState) : TaskState :=
  performCloseTask s

/-- The `panOpen` callback at the system level: it only mutates the menu
state; it performs or cancels no task. -/
def panOpenSys (cfg : Config) (s : TaskState) (e : Sample) : TaskState :=
  { s with menu := panOpen cfg s.menu e }

/-- The `didPan` callback at the system level: it only mutates the menu
state; it performs or cancels no task. -/
def didPanSys (cfg : Config) (s : TaskState) (e : Sample) : TaskState :=
  { s with menu := didPan cfg s.menu e }

/-- The `panOpenEnd` callback at the system level: updates the menu state
(`isDragging = false`), then performs the selected task. -/
def panOpenEndSys (cfg : Config) (s : TaskState) (e : Sample) : TaskState :=
  let r := panOpenEnd cfg s.menu e
  match r.2 with
  | .openMenu => performOpenTask cfg { s with menu := r.1 }
  | .closeMenu => performCloseTask { s with menu := r.1 }

/-- The `didPanEnd` callback at the system level: when a drag was in
progress, updates the menu state and performs the selected task. -/
def didPanEndSys (cfg : Config) (s : TaskState) (e : Sample) : TaskState :=
  let r := didPanEnd cfg s.menu e
  match r.2 with
  | some .openMenu => performOpenTask cfg { s with menu := r.1 }
  | some .closeMenu => performCloseTask { s with menu := r.1 }
  | none => { s with menu := r.1 }

/-- A left menu with `maxWidth = 300`, `triggerVelocity = 0.3` in a
pre-render (FastBoot) context, so `_width = 300`: the configuration of the
spec's worked decision examples. -/
def cfg300 : Config :=
  { type := MenuType.left, width := 85, maxWidth := 300,
    triggerVelocity := 3 / 10, isFastBoot := true, windowWidth := 0 }

/-- A state in the middle of a reposition drag. -/
def dragSt : MenuState :=
  { isDragging := true, position := 100, dxCorrection := 0 }

/-- The initial component state. -/
def initSt : MenuState :=
  { isDragging := false, position := 0, dxCorrection := 0 }


/-- A left menu with `width = 50` percent over a 400px viewport (no
FastBoot), so `_width = min(200, 300) = 200`. -/
def cfgWin : Config :=
  { type := MenuType.left, width := 50, maxWidth := 300,
    triggerVelocity := 3 / 10, isFastBoot := false, windowWidth := 400 }

/-- A sample whose directionalized displacement is `d` and whose velocity
is zero, for either anchor. -/
def mkDx (cfg : Config) (d : ℚ) : Sample :=
  ⟨if isLeft cfg then d else -d, 0, 0⟩

theorem dirDx_mkDx (cfg : Config) (d : ℚ) : dirDx cfg (mkDx cfg d) = d := by
  simp only [dirDx, mkDx]
  split_ifs <;> simp

theorem dirVx_mkDx (cfg : Config) (d : ℚ) : dirVx cfg (mkDx cfg d) = 0 := by
  simp only [dirVx, mkDx]
  split_ifs <;> simp

/-- The position written by `panOpen` is clamped into `[0, _width]`. -/
theorem panOpen_position_mem (cfg : Config) (s : MenuState) (e : Sample)
    (hw : 0 <= _width cfg) :
    0 <= (panOpen cfg s e).position ∧ (panOpen cfg s e).position <= _width cfg := by
  simp only [panOpen]
  constructor
  · exact le_min (le_max_right _ _) hw
  · exact min_le_right _ _

/-- Every `didPan` call either leaves `position` unchanged or writes a
value in `[0, _width]`. -/
theorem didPan_position_cases (cfg : Config) (s : MenuState) (e : Sample)
    (hw : 0 <= _width cfg) :
    (didPan cfg s e).position = s.position ∨
      (0 <= (didPan cfg s e).position ∧ (didPan cfg s e).position <= _width cfg) := by
  simp only [didPan]
  split_ifs with h1 _h2 h3 h4 h5 h6 h7 h8 <;>
    first
      | (left; rfl)
      | (right; constructor <;> simp_all <;> linarith)

/-- A `didPan` sample arriving while open and not yet dragging, with the
pointer inside the drawer footprint, sets `isDragging`, captures
`dxCorrection = dx` and writes `position = _width`. -/
theorem didPan_capture (cfg : Config) (s : MenuState) (e : Sample)
    (hOpen : isOpen cfg s = true) (hdrag : s.isDragging = false)
    (hw : 0 <= _width cfg) (hc : cxOf cfg e < _width cfg) :
    didPan cfg s e = ⟨true, _width cfg, dirDx cfg e⟩ := by
  obtain ⟨d, pos, corr⟩ := s
  subst hdrag
  have hz2 : ¬((0:ℚ) < -1 * _width cfg) := by nlinarith
  simp [didPan, hOpen, hc, hz2]
  intro h
  linarith

/-- A `didPan` sample arriving mid-drag with the pointer inside the drawer
footprint and an in-range corrected delta writes
`position = _width + (dx - dxCorrection)`. -/
theorem didPan_drag_write (cfg : Config) (s : MenuState) (e : Sample)
    (hd : s.isDragging = true) (hc : cxOf cfg e < _width cfg)
    (hlo : -1 * _width cfg <= dirDx cfg e - s.dxCorrection)
    (hhi : dirDx cfg e - s.dxCorrection <= 0) :
    didPan cfg s e =
      ⟨true, _width cfg + (dirDx cfg e - s.dxCorrection), s.dxCorrection⟩ := by
  obtain ⟨d, pos, corr⟩ := s
  subst hd
  have hno : ¬(isOpen cfg (⟨true, pos, corr⟩ : MenuState) = true ∧
      (⟨true, pos, corr⟩ : MenuState).isDragging = false ∧
      cxOf cfg e < _width cfg) := by
    simp
  simp [didPan, hc, not_lt.mpr hhi, not_lt.mpr hlo]
  intro h
  linarith

/-- Every position reachable through the gesture handlers and the two
animation projections lies in `[0, _width]`. -/
theorem reachable_mem (cfg : Config) (pos : ℚ) (hw : 0 <= _width cfg)
    (h : ReachablePos cfg pos) : 0 <= pos ∧ pos <= _width cfg := by
  induction h with
  | init => exact ⟨le_refl 0, hw⟩
  | openDragStep s e _ _ => exact panOpen_position_mem cfg s e hw
  | repositionStep s e _ ih =>
    rcases didPan_position_cases cfg s e hw with heq | hb
    · exact heq ▸ ih
    · exact hb
  | openAnimStep startPos p _ hp0 hp1 ih =>
    rcases ih with ⟨a, b⟩
    constructor <;> nlinarith
  | closeAnimStep startPos p _ hp0 hp1 ih =>
    rcases ih with ⟨a, b⟩
    constructor <;> nlinarith

/-- C1: open-channel gesture-end decision.  `panOpenEnd` selects the open
animation iff `vx > triggerVelocity ∨ dx > _width / 2` (with `vx`, `dx`
the directionalized velocity and displacement), and otherwise selects the
close animation; with `_width = 300`, `triggerVelocity = 0.3`:
`dx = 200, vx = 0` selects open, `dx = 100, vx = 0` selects close, and
`vx = 0.5` selects open for every `dx` (in particular `dx = 0`). -/
theorem panOpenEnd_decision (cfg : Config) (s : MenuState) (e : Sample) :
    ((panOpenEnd cfg s e).2 = MenuAction.openMenu ↔
      dirVx cfg e > cfg.triggerVelocity ∨ dirDx cfg e > _width cfg / 2) ∧
    ((panOpenEnd cfg s e).2 = MenuAction.closeMenu ↔
      ¬(dirVx cfg e > cfg.triggerVelocity ∨ dirDx cfg e > _width cfg / 2)) ∧
    (panOpenEnd cfg300 initSt ⟨200, 0, 0⟩).2 = MenuAction.openMenu ∧
    (panOpenEnd cfg300 initSt ⟨100, 0, 0⟩).2 = MenuAction.closeMenu ∧
    (∀ d : ℚ, (panOpenEnd cfg300 initSt ⟨d, 1/2, 0⟩).2 = MenuAction.openMenu) := by
  refine ⟨?_, ?_, ?_, ?_, ?_⟩
  · simp only [panOpenEnd]
    split_ifs with h <;> simp_all
  · simp only [panOpenEnd]
    split_ifs with h <;> simp_all
  · norm_num [panOpenEnd, dirDx, dirVx, isLeft, _width, cfg300]
  · norm_num [panOpenEnd, dirDx, dirVx, isLeft, _width, cfg300]
  · intro d
    norm_num [panOpenEnd, dirDx, dirVx, isLeft, _width, cfg300]

/-- C2: reposition-channel gesture-end decision.  When a drag is in
progress, `didPanEnd` selects the close animation iff
`vx < -triggerVelocity ∨ -dx > _width / 2`, and otherwise selects the open
animation; with `_width = 300`, `triggerVelocity = 0.3`:
`dx = -200, vx = 0` selects close, `dx = -100, vx = 0` selects open, and
`vx = -0.5` selects close for every `dx`. -/
theorem didPanEnd_decision (cfg : Config) (s : MenuState) (e : Sample)
    (h : s.isDragging = true) :
    ((didPanEnd cfg s e).2 = some MenuAction.closeMenu ↔
      dirVx cfg e < -cfg.triggerVelocity ∨ -dirDx cfg e > _width cfg / 2) ∧
    ((didPanEnd cfg s e).2 = some MenuAction.openMenu ↔
      ¬(dirVx cfg e < -cfg.triggerVelocity ∨ -dirDx cfg e > _width cfg / 2)) ∧
    (didPanEnd cfg300 dragSt ⟨-200, 0, 0⟩).2 = some MenuAction.closeMenu ∧
    (didPanEnd cfg300 dragSt ⟨-100, 0, 0⟩).2 = some MenuAction.openMenu ∧
    (∀ d : ℚ, (didPanEnd cfg300 dragSt ⟨d, -1/2, 0⟩).2 = some MenuAction.closeMenu) := by
  refine ⟨?_, ?_, ?_, ?_, ?_⟩
  · simp only [didPanEnd, h, if_true, neg_one_mul]
    split_ifs with hcond <;> simp_all
  · simp only [didPanEnd, h, if_true, neg_one_mul]
    split_ifs with hcond <;> simp_all
  · norm_num [didPanEnd, dragSt, dirDx, dirVx, isLeft, _width, cfg300]
  · norm_num [didPanEnd, dragSt, dirDx, dirVx, isLeft, _width, cfg300]
  · intro d
    norm_num [didPanEnd, dragSt, dirDx, dirVx, isLeft, _width, cfg300]

theorem didPanEnd_decision_witness :
    (didPanEnd cfg300 dragSt ⟨-200, 0, 0⟩).2 = some MenuAction.closeMenu :=
  (didPanEnd_decision cfg300 dragSt ⟨-200, 0, 0⟩ rfl).2.2.1

/-- C3: position range invariant.  Starting from any in-range position,
every sequence of `panOpen` / `didPan` samples leaves `position` within
`[0, _width]`, assuming `_width >= 0`; in particular every write performed
during the run lands in `[0, _width]` (every intermediate state is the run
of a prefix). -/
theorem position_range_invariant (cfg : Config) (s : MenuState)
    (l : List DragEvent) (hw : 0 <= _width cfg)
    (h0 : 0 <= s.position) (h1 : s.position <= _width cfg) :
    0 <= (dragRun cfg s l).position ∧ (dragRun cfg s l).position <= _width cfg := by
  induction l generalizing s with
  | nil => exact ⟨h0, h1⟩
  | cons ev l ih =>
    show 0 <= (dragRun cfg (dragStep cfg s ev) l).position ∧ _
    cases ev with
    | openDrag e =>
      rcases panOpen_position_mem cfg s e hw with ⟨a, b⟩
      exact ih _ a b
    | reposition e =>
      rcases didPan_position_cases cfg s e hw with heq | ⟨a, b⟩
      · exact ih _ (heq ▸ h0) (heq ▸ h1)
      · exact ih _ a b

theorem position_range_invariant_witness :
    0 <= (dragRun cfg300 initSt
        [DragEvent.openDrag ⟨200, 0, 0⟩, DragEvent.reposition ⟨-30, 0, 100⟩]).position ∧
    (dragRun cfg300 initSt
        [DragEvent.openDrag ⟨200, 0, 0⟩, DragEvent.reposition ⟨-30, 0, 100⟩]).position
      <= _width cfg300 :=
  position_range_invariant cfg300 initSt
    [DragEvent.openDrag ⟨200, 0, 0⟩, DragEvent.reposition ⟨-30, 0, 100⟩]
    (by norm_num [_width, cfg300]) (by norm_num [initSt])
    (by norm_num [initSt, _width, cfg300])

/-- C4: drag-correction compensation.  A reposition gesture beginning
while open (`isOpen`, not dragging) with the pointer inside the drawer
footprint captures `dxCorrection` equal to the directionalized
displacement of that sample; if a later sample (pointer still inside the
footprint) shows the directionalized displacement decreased by a further
50, the resulting position is `_width - 50`, for every amount of
displacement accumulated before drag recognition (`_width >= 50` is forced
by a 50px inward motion that stays inside the footprint). -/
theorem didPan_dragCorrection (cfg : Config) (s : MenuState) (e1 e2 : Sample)
    (hOpen : isOpen cfg s = true) (hdrag : s.isDragging = false)
    (hw : 50 <= _width cfg)
    (hc1 : cxOf cfg e1 < _width cfg) (hc2 : cxOf cfg e2 < _width cfg)
    (hdx : dirDx cfg e2 = dirDx cfg e1 - 50) :
    (didPan cfg s e1).dxCorrection = dirDx cfg e1 ∧
    (didPan cfg s e1).isDragging = true ∧
    (didPan cfg (didPan cfg s e1) e2).position = _width cfg - 50 := by
  have hw0 : 0 <= _width cfg := by linarith
  have h1 : didPan cfg s e1 = ⟨true, _width cfg, dirDx cfg e1⟩ :=
    didPan_capture cfg s e1 hOpen hdrag hw0 hc1
  have h2 : didPan cfg (⟨true, _width cfg, dirDx cfg e1⟩ : MenuState) e2 =
      ⟨true, _width cfg + (dirDx cfg e2 - dirDx cfg e1), dirDx cfg e1⟩ :=
    didPan_drag_write cfg ⟨true, _width cfg, dirDx cfg e1⟩ e2 rfl hc2
      (by simp only []; rw [hdx]; linarith)
      (by simp only []; rw [hdx]; linarith)
  refine ⟨by rw [h1], by rw [h1], ?_⟩
  rw [h1, h2]
  simp only []
  rw [hdx]
  ring

theorem didPan_dragCorrection_witness :
    (didPan cfg300 ⟨false, 300, 0⟩ ⟨-70, 0, 150⟩).dxCorrection
        = dirDx cfg300 ⟨-70, 0, 150⟩ ∧
    (didPan cfg300 ⟨false, 300, 0⟩ ⟨-70, 0, 150⟩).isDragging = true ∧
    (didPan cfg300 (didPan cfg300 ⟨false, 300, 0⟩ ⟨-70, 0, 150⟩) ⟨-120, 0, 140⟩).position
        = _width cfg300 - 50 :=
  didPan_dragCorrection cfg300 ⟨false, 300, 0⟩ ⟨-70, 0, 150⟩ ⟨-120, 0, 140⟩
    (by simp [isOpen, _width, cfg300]) rfl (by norm_num [_width, cfg300])
    (by norm_num [cxOf, isLeft, _width, cfg300])
    (by norm_num [cxOf, isLeft, _width, cfg300])
    (by norm_num [dirDx, isLeft, cfg300])

/-- C5 counterexample: a programmatic `actions.open()` on a state with the
close animation live and a drag in progress leaves the close instance
live and `isDragging` set, and a drag-begin sample on either channel
leaves a live animation instance running: the claimed cancellation and
clearing do not happen in the code. -/
theorem mutualExclusion_counterexample :
    (actionOpen cfg300 ⟨⟨true, 150, 0⟩, none, some 150, 0, 0⟩).closeInst ≠ none ∧
    (actionOpen cfg300 ⟨⟨true, 150, 0⟩, none, some 150, 0, 0⟩).menu.isDragging ≠ false ∧
    (panOpenSys cfg300 ⟨⟨false, 10, 0⟩, some (0, 300), none, 0, 0⟩ ⟨20, 0, 0⟩).openInst
      ≠ none ∧
    (didPanSys cfg300 ⟨⟨false, 300, 0⟩, none, some 300, 0, 0⟩ ⟨-20, 0, 100⟩).closeInst
      ≠ none := by
  refine ⟨?_, ?_, ?_, ?_⟩ <;>
    simp [actionOpen, performOpenTask, panOpenSys, didPanSys]

/-- C5 amended: the gesture-end handlers set `isDragging = false` before
performing an animation task, but `open()` / `close()` are independent
restartable tasks: performing one replaces only its own previous instance
and touches neither the other channel's instance nor `isDragging`, and a
drag-begin (`panOpen` / `didPan`) cancels no running animation. -/
theorem writer_discipline (cfg : Config) (s : TaskState) (e : Sample) :
    (panOpenEndSys cfg s e).menu.isDragging = false ∧
    (s.menu.isDragging = true → (didPanEndSys cfg s e).menu.isDragging = false) ∧
    (actionOpen cfg s).closeInst = s.closeInst ∧
    (actionOpen cfg s).menu = s.menu ∧
    (actionClose s).openInst = s.openInst ∧
    (actionClose s).menu = s.menu ∧
    (panOpenSys cfg s e).openInst = s.openInst ∧
    (panOpenSys cfg s e).closeInst = s.closeInst ∧
    (didPanSys cfg s e).openInst = s.openInst ∧
    (didPanSys cfg s e).closeInst = s.closeInst := by
  refine ⟨?_, ?_, rfl, rfl, rfl, rfl, rfl, rfl, rfl, rfl⟩
  · simp only [panOpenEndSys, panOpenEnd]
    split <;> rfl
  · intro h
    simp only [didPanEndSys, didPanEnd, h, if_true]
    split <;> rfl

theorem writer_discipline_witness :
    (didPanEndSys cfg300 ⟨dragSt, none, none, 0, 0⟩ ⟨-200, 0, 0⟩).menu.isDragging
      = false :=
  (writer_discipline cfg300 ⟨dragSt, none, none, 0, 0⟩ ⟨-200, 0, 0⟩).2.1 rfl

/-- C6: effective width.  For `width ∈ [0,100]`, `maxWidth > 0` and
`windowWidth >= 0`, `_width` is nonnegative, equals
`min(width/100 * windowWidth, maxWidth)` outside FastBoot, and equals
`maxWidth` in a FastBoot (pre-render) context. -/
theorem effectiveWidth_formula (cfg : Config)
    (h1 : 0 <= cfg.width) (_h2 : cfg.width <= 100)
    (h3 : 0 < cfg.maxWidth) (h4 : 0 <= cfg.windowWidth) :
    0 <= _width cfg ∧
    (cfg.isFastBoot = false →
      _width cfg = min (cfg.width / 100 * cfg.windowWidth) cfg.maxWidth) ∧
    (cfg.isFastBoot = true → _width cfg = cfg.maxWidth) := by
  unfold _width
  cases hfb : cfg.isFastBoot with
  | false =>
    simp only [hfb, if_false, Bool.false_eq_true]
    refine ⟨?_, by simp, by simp⟩
    refine le_min ?_ (le_of_lt h3)
    have : (0:ℚ) <= cfg.width / 100 := by positivity
    exact mul_nonneg this h4
  | true =>
    simp only [hfb, if_true]
    exact ⟨le_of_lt h3, by simp, by simp⟩

theorem effectiveWidth_formula_witness :
    (0 <= _width cfg300 ∧ _width cfg300 = cfg300.maxWidth) ∧
    _width cfgWin = min (cfgWin.width / 100 * cfgWin.windowWidth) cfgWin.maxWidth := by
  have ha := effectiveWidth_formula cfg300 (by norm_num [cfg300]) (by norm_num [cfg300])
    (by norm_num [cfg300]) (by norm_num [cfg300])
  have hb := effectiveWidth_formula cfgWin (by norm_num [cfgWin]) (by norm_num [cfgWin])
    (by norm_num [cfgWin]) (by norm_num [cfgWin])
  exact ⟨⟨ha.1, ha.2.2 rfl⟩, hb.2.1 rfl⟩

/-- C7: restart idempotence of `open()`.  Performing `open` again after an
arbitrary partial progress of a first `open` cancels the first instance
(whose completion callback never fires) and, once the second instance
completes, `onOpen` has fired exactly once and `position = _width`. -/
theorem open_restart_idempotence (cfg : Config) (s0 : TaskState) (p q : ℚ) :
    (openComplete (openProgress (performOpenTask cfg
        (openProgress (performOpenTask cfg s0) p)) q)).onOpenCount
      = s0.onOpenCount + 1 ∧
    (openComplete (openProgress (performOpenTask cfg
        (openProgress (performOpenTask cfg s0) p)) q)).menu.position = _width cfg := by
  simp only [performOpenTask, openProgress, openComplete]
  refine ⟨by simp, by ring⟩

/-- C8: close-animation projection.  Every progress write of a `close`
animation started at `startPosition` writes
`position = startPosition * (1 - p)`, and completion fires the `onClose`
callback (and leaves `position = 0`). -/
theorem close_projection (s0 : TaskState) (p : ℚ) :
    (closeProgress (performCloseTask s0) p).menu.position
      = s0.menu.position * (1 - p) ∧
    (closeComplete (performCloseTask s0)).onCloseCount = s0.onCloseCount + 1 ∧
    (closeComplete (performCloseTask s0)).menu.position = 0 := by
  simp only [performCloseTask, closeProgress, closeComplete]
  refine ⟨by simp, by simp, by ring⟩

/-- C9: relative-position bound.  `relativePosition` equals
`|position| / _width`, and for every position reachable through the
gesture handlers and animations it lies in `[0, 1]` (with `_width > 0`). -/
theorem relativePosition_bounds (cfg : Config) (s : MenuState)
    (hw : 0 < _width cfg) (h : ReachablePos cfg s.position) :
    relativePosition cfg s = |s.position| / _width cfg ∧
    0 <= relativePosition cfg s ∧ relativePosition cfg s <= 1 := by
  obtain ⟨hp0, hp1⟩ := reachable_mem cfg s.position (le_of_lt hw) h
  refine ⟨rfl, div_nonneg (abs_nonneg _) (le_of_lt hw), ?_⟩
  rw [relativePosition, abs_of_nonneg hp0]
  exact (div_le_one hw).mpr hp1

theorem relativePosition_bounds_witness :
    0 <= relativePosition cfg300 initSt ∧ relativePosition cfg300 initSt <= 1 := by
  have h := relativePosition_bounds cfg300 initSt (by norm_num [_width, cfg300])
    ReachablePos.init
  exact ⟨h.2.1, h.2.2⟩

/-- C10: the reposition gesture-end decision reads the raw directionalized
`distanceX`, never the captured `dxCorrection`: `didPanEnd` always returns
`didPanEndDecision`, a function of the sample alone; and for every nonzero
pre-recognition displacement `c` there is a gesture-end sample on which
this raw decision differs from the decision the corrected displacement
`dx - c` would select. -/
theorem didPanEnd_ignores_correction (cfg : Config) (s : MenuState)
    (e : Sample) (c : ℚ) (h : s.isDragging = true)
    (htv : 0 <= cfg.triggerVelocity) (hc : c ≠ 0) :
    (didPanEnd cfg s e).2 = some (didPanEndDecision cfg e) ∧
    ∃ e2 : Sample, didPanEndDecision cfg e2 ≠ correctedDecision cfg c e2 := by
  constructor
  · simp only [didPanEnd, didPanEndDecision, h, if_true]
  · refine ⟨mkDx cfg (-(_width cfg)/2 + c/2), ?_⟩
    have hdx := dirDx_mkDx cfg (-(_width cfg)/2 + c/2)
    have hvx := dirVx_mkDx cfg (-(_width cfg)/2 + c/2)
    simp only [didPanEndDecision, correctedDecision, hdx, hvx]
    have hv : ¬((0:ℚ) < -1 * cfg.triggerVelocity) := by nlinarith
    rcases lt_or_gt_of_ne hc with hneg | hpos
    · have hr : -1 * (-(_width cfg)/2 + c/2) > _width cfg / 2 := by linarith
      have hk : ¬(-1 * (-(_width cfg)/2 + c/2 - c) > _width cfg / 2) := by
        push_neg
        linarith
      rw [if_pos (Or.inr hr), if_neg ?_]
      · simp
      · push_neg
        exact ⟨not_lt.mp hv, not_lt.mp hk⟩
    · have hr : ¬(-1 * (-(_width cfg)/2 + c/2) > _width cfg / 2) := by
        push_neg
        linarith
      have hk : -1 * (-(_width cfg)/2 + c/2 - c) > _width cfg / 2 := by linarith
      rw [if_neg ?_, if_pos (Or.inr hk)]
      · simp
      · push_neg
        exact ⟨not_lt.mp hv, not_lt.mp hr⟩

theorem didPanEnd_ignores_correction_witness :
    (didPanEnd cfg300 dragSt ⟨-200, 0, 0⟩).2
        = some (didPanEndDecision cfg300 ⟨-200, 0, 0⟩) ∧
    ∃ e2, didPanEndDecision cfg300 e2 ≠ correctedDecision cfg300 (-100) e2 :=
  didPanEnd_ignores_correction cfg300 dragSt ⟨-200, 0, 0⟩ (-100) rfl
    (by norm_num [cfg300]) (by norm_num)

end MobileMenu
